import Mathlib

/-!
Verification development for the trace-based incremental-rebuild engine
(riker/dodo style forward build system).

The definitions below are shallow embeddings of the C++ sources under
`src/`.  Each definition names the source entity it embeds; machine
integers are modelled as `Nat`, POSIX calls (stat, faccessat, filesystem
directory listing) are modelled as explicit oracle arguments, and the
stateful registries (`std::map` / `std::set`) are modelled as association
lists or `Finset`s with insert-if-absent updates.
-/

namespace Riker

/-! ### Access flags (src/src/core/IR.hh, `Reference::Access::Flags`) -/

/-- Embeds `Reference::Access::Flags` from src/src/core/IR.hh (lines 119-127). -/
structure Flags where
  r : Bool := false
  w : Bool := false
  x : Bool := false
  nofollow : Bool := false
  truncate : Bool := false
  create : Bool := false
  exclusive : Bool := false
deriving DecidableEq

/-- Linux `O_RDONLY` (value 0). -/
def O_RDONLY : Nat := 0

/-- Linux `O_WRONLY` (value 1). -/
def O_WRONLY : Nat := 1

/-- Linux `O_RDWR` (value 2). -/
def O_RDWR : Nat := 2

/-- Linux `O_TRUNC` (octal 01000). -/
def O_TRUNC : Nat := 512

/-- Linux `O_CREAT` (octal 0100). -/
def O_CREAT : Nat := 64

/-- Linux `O_EXCL` (octal 0200). -/
def O_EXCL : Nat := 128

/-- Linux `O_NOFOLLOW` (octal 0400000). -/
def O_NOFOLLOW : Nat := 131072

/-- Embeds `Reference::Access::Flags::fromOpen` from src/src/core/IR.hh
(lines 129-136), field by field.  The C++ reads
`.r = (flags & O_RDONLY) == O_RDONLY || (flags & O_RDWR) == O_RDWR`, and so
on for the other fields. -/
def Flags.fromOpen (flags : Nat) : Flags :=
  { r := ((flags &&& O_RDONLY) == O_RDONLY) || ((flags &&& O_RDWR) == O_RDWR),
    w := ((flags &&& O_WRONLY) == O_WRONLY) || ((flags &&& O_RDWR) == O_RDWR),
    nofollow := (flags &&& O_NOFOLLOW) == O_NOFOLLOW,
    truncate := (flags &&& O_TRUNC) == O_TRUNC,
    create := (flags &&& O_CREAT) == O_CREAT,
    exclusive := (flags &&& O_EXCL) == O_EXCL }

/-! ### Rebuild planner graph and the recursive mark procedure
(src/src/observers/RebuildPlanner.hh, src/src/core/Rebuild.cc) -/

/-- Embeds the dependency edges accumulated by the planner: `_children`,
`_needs_output_from` and `_output_used_by` from src/src/observers/RebuildPlanner.hh
(lines 198-212) and the same-named fields of `Rebuild` in src/src/core/Rebuild.cc.
Commands are identified with `Fin n`. -/
structure CmdGraph (n : Nat) where
  children : Fin n → List (Fin n)
  needs_output_from : Fin n → List (Fin n)
  output_used_by : Fin n → List (Fin n)

/-- The successors visited by `mark` for one command, in the source's order:
children first, then needed producers, then consumers of the command's output
(src/src/core/Rebuild.cc lines 145-158; src/src/observers/RebuildPlanner.hh
lines 176-195). -/
def CmdGraph.succs {n : Nat} (g : CmdGraph n) (c : Fin n) : List (Fin n) :=
  g.children c ++ g.needs_output_from c ++ g.output_used_by c

/-- Embeds the recursive `Rebuild::mark` (src/src/core/Rebuild.cc lines 138-159)
and `RebuildPlanner::mark` (src/src/observers/RebuildPlanner.hh lines 152-196),
with the recursion turned into an explicit work list: a command already in the
plan is skipped; marking a new command inserts it and pushes its successors in
front of the remaining work, which is exactly the depth-first order of the
recursive calls.  The `std::set` of marked commands is modelled as a list that
is only ever extended with commands not yet in it.  The diagnostic `Reason`
argument does not influence the marked set and is omitted. -/
def markMany {n : Nat} (g : CmdGraph n) : List (Fin n) → List (Fin n) → List (Fin n)
  | [], plan => plan
  | c :: rest, plan =>
    if c ∈ plan then markMany g rest plan
    else markMany g (g.succs c ++ rest) (c :: plan)
termination_by l plan => ((Finset.univ \ plan.toFinset).card, l.length)
decreasing_by
  · exact Prod.Lex.right _ (Nat.lt_succ_self _)
  · apply Prod.Lex.left
    apply Finset.card_lt_card
    constructor
    · rw [List.toFinset_cons]
      exact Finset.sdiff_subset_sdiff (le_refl _) (Finset.subset_insert _ _)
    · intro hsub
      have hc : c ∈ Finset.univ \ plan.toFinset := by
        simp [Finset.mem_sdiff, List.mem_toFinset]
        assumption
      have := hsub hc
      rw [List.toFinset_cons] at this
      simp [Finset.mem_sdiff] at this

/-- Embeds a single planner `mark` call on the current plan. -/
def mark {n : Nat} (g : CmdGraph n) (plan : List (Fin n)) (c : Fin n) : List (Fin n) :=
  markMany g [c] plan

/-- Embeds `RebuildPlanner::planBuild` (src/src/observers/RebuildPlanner.hh lines
34-48) and the marking loop of `Rebuild::create` (src/src/core/Rebuild.cc lines
26-35): mark every command with changed inputs, then every command whose output
is needed. -/
def planBuild {n : Nat} (g : CmdGraph n) (changed output_needed : List (Fin n)) :
    List (Fin n) :=
  (changed ++ output_needed).foldl (mark g) []

/-- Embeds the same recursion as `markMany` with an explicit fuel; `none`
signals fuel exhaustion.  Used to state that the source's unbounded recursion
in `mark` always bottoms out. -/
def markManyF {n : Nat} (g : CmdGraph n) :
    Nat → List (Fin n) → List (Fin n) → Option (List (Fin n))
  | 0, _, _ => none
  | _ + 1, [], plan => some plan
  | fuel + 1, c :: rest, plan =>
    if c ∈ plan then markManyF g fuel rest plan
    else markManyF g fuel (g.succs c ++ rest) (c :: plan)

/-- Upper bound on the number of successor edges pushed when any one command is
marked. -/
def succBound {n : Nat} (g : CmdGraph n) : Nat :=
  Finset.univ.sup fun c => (g.succs c).length

/-- Explicit bound on the recursion depth of `mark`: each of the at most
`(Finset.univ \ plan.toFinset).card` unmarked commands is marked at most once,
pushing at most `succBound g` successors, plus one step per work-list entry. -/
def markBound {n : Nat} (g : CmdGraph n) (plan : List (Fin n)) (l : List (Fin n)) : Nat :=
  (Finset.univ \ plan.toFinset).card * (succBound g + 1) + l.length

/-- A small concrete planner graph on two commands: command 0 launched
command 1 as a child; no data-dependency edges. -/
def gChild : CmdGraph 2 :=
  ⟨fun c => if c = 0 then [1] else [], fun _ => [], fun _ => []⟩

/-- A small concrete cyclic planner graph on two commands: each command
consumes output of the other, so the dependency edges form a cycle. -/
def gCycle : CmdGraph 2 :=
  ⟨fun _ => [], fun _ => [], fun c => if c = 0 then [1] else [0]⟩

/-! ### Rebuild planner observer state (src/src/observers/RebuildPlanner.hh) -/

/-- The input-type tag passed to `BuildObserver::observeInput`.  The enum lives
in the missing interfaces/BuildObserver.hh; the values are those used in src:
`InputType::Exists` (src/src/observers/RebuildPlanner.hh line 67),
`InputType::PathResolution` and `InputType::Inherited`
(src/src/artifacts/DirArtifact.cc lines 77, 111, 136). -/
inductive InputType where
  | Exists
  | PathResolution
  | Inherited
deriving DecidableEq

/-- Insert into a `std::set` modelled as a duplicate-free list: a no-op when the
element is already present. -/
def listInsert {α : Type} [DecidableEq α] (x : α) (l : List α) : List α :=
  if x ∈ l then l else x :: l

/-- Point update of a map modelled as a function into lists, inserting one
element into the image of one key (`_map[k].insert(v)` in the C++). -/
def mapInsert {n : Nat} (f : Fin n → List (Fin n)) (k : Fin n) (v : Fin n) :
    Fin n → List (Fin n) :=
  fun x => if x = k then listInsert v (f k) else f x

/-- Embeds the mutable state of `RebuildPlanner`
(src/src/observers/RebuildPlanner.hh lines 198-212): `_children`, `_changed`,
`_output_needed`, `_output_used_by` and `_needs_output_from`, with the
`std::set`/`std::map` containers modelled as duplicate-free lists and functions
into lists. -/
structure PlannerState (n : Nat) where
  children : Fin n → List (Fin n)
  changed : List (Fin n)
  output_needed : List (Fin n)
  output_used_by : Fin n → List (Fin n)
  needs_output_from : Fin n → List (Fin n)

/-- The planner state with no recorded observations. -/
def emptyPlanner (n : Nat) : PlannerState n :=
  ⟨fun _ => [], [], [], fun _ => [], fun _ => []⟩

/-- Embeds `RebuildPlanner::observeInput` (src/src/observers/RebuildPlanner.hh
lines 59-81).  `creator` is `v->getCreator()` for the consumed version,
`canCommit` is the outcome of `a->canCommit(v)` on the owning artifact, and
`enable_cache` is the global `options::enable_cache`.  When the version has a
creator: the forward edge `_output_used_by[creator] += c` is recorded unless the
input type is `Exists`; the back edge `_needs_output_from[c] += creator` is
recorded unless the cache is enabled and the version can be committed. -/
def observeInput {n : Nat} (s : PlannerState n) (c : Fin n) (creator : Option (Fin n))
    (t : InputType) (enable_cache canCommit : Bool) : PlannerState n :=
  match creator with
  | none => s
  | some cr =>
    let s1 := if t ≠ InputType.Exists
      then { s with output_used_by := mapInsert s.output_used_by cr c }
      else s
    if enable_cache && canCommit then s1
    else { s1 with needs_output_from := mapInsert s1.needs_output_from c cr }

/-- Embeds `RebuildPlanner::observeMismatch` (src/src/observers/RebuildPlanner.hh
lines 84-91): the observing command joins `_changed`. -/
def observeMismatch {n : Nat} (s : PlannerState n) (c : Fin n) : PlannerState n :=
  { s with changed := listInsert c s.changed }

/-- Embeds `RebuildPlanner::observeCommandNeverRun`
(src/src/observers/RebuildPlanner.hh lines 94-97): a command that has never run
joins `_changed`. -/
def observeCommandNeverRun {n : Nat} (s : PlannerState n) (c : Fin n) : PlannerState n :=
  { s with changed := listInsert c s.changed }

/-- Embeds `RebuildPlanner::observeFinalMismatch`
(src/src/observers/RebuildPlanner.hh lines 128-142): when the stale artifact has
a creator and cannot be staged in from cache, the creator joins
`_output_needed`. -/
def observeFinalMismatch {n : Nat} (s : PlannerState n) (creator : Option (Fin n))
    (enable_cache canCommit : Bool) : PlannerState n :=
  match creator with
  | none => s
  | some cr =>
    if enable_cache && canCommit then s
    else { s with output_needed := listInsert cr s.output_needed }

/-- Embeds `RebuildPlanner::observeLaunch` (src/src/observers/RebuildPlanner.hh
lines 145-148): record the child under its parent, if any. -/
def observeLaunch {n : Nat} (s : PlannerState n) (parent : Option (Fin n)) (child : Fin n) :
    PlannerState n :=
  match parent with
  | none => s
  | some p => { s with children := mapInsert s.children p child }

/-- The dependency graph held inside a planner state. -/
def graphOf {n : Nat} (s : PlannerState n) : CmdGraph n :=
  ⟨s.children, s.needs_output_from, s.output_used_by⟩

/-- Embeds `RebuildPlanner::planBuild` applied to the accumulated observer
state. -/
def planBuildS {n : Nat} (s : PlannerState n) : List (Fin n) :=
  planBuild (graphOf s) s.changed s.output_needed

/-- Scenario S6 as observed by the planner, on two commands A = 0 and B = 1:
command B consumed a version created by command A whose content is saved in the
cache (`canCommit` true, `enable_cache` true), and command A observed a
predicate mismatch (its edited source). -/
def s6state : PlannerState 2 :=
  observeMismatch (observeInput (emptyPlanner 2) 1 (some 0) InputType.PathResolution true true) 0

/-! ### Association-list helpers for `std::map` state -/

/-- Lookup in a `std::map` modelled as an association list (`find` returning
`end()` becomes `none`). -/
def assocLookup {α β : Type} [DecidableEq α] (k : α) : List (α × β) → Option β
  | [] => none
  | (k', v) :: rest => if k = k' then some v else assocLookup k rest

/-- Assignment `m[k] = v` on a `std::map` modelled as an association list. -/
def assocInsert {α β : Type} [DecidableEq α] (k : α) (v : β) : List (α × β) → List (α × β)
  | [] => [(k, v)]
  | (k', v') :: rest => if k = k' then (k, v) :: rest else (k', v') :: assocInsert k v rest

/-! ### Trace records (src/src/core/Trace.cc) -/

/-- The well-known entities of `SpecialRef` (src/src/core/SpecialRefs.hh is not
under src; the values are the ones used by `InputTrace::initDefault` in
src/src/core/Trace.cc lines 426-463 and listed in the spec). -/
inductive SpecialRefKind where
  | stdin
  | stdout
  | stderr
  | root
  | cwd
  | launch_exe
deriving DecidableEq

/-- The command payload carried by a `LaunchRecord`: executable reference,
argument vector, initial file descriptors (fd number, `RefResult` id, access
flags), cwd and root references, as built in `InputTrace::initDefault`
(src/src/core/Trace.cc lines 452-459).  `RefResult` identities are encoded as
numbers in order of creation. -/
structure TraceCommand where
  exe_ref : Nat
  args : List String
  fds : List (Nat × Nat × Flags)
  cwd_ref : Nat
  root_ref : Nat
deriving DecidableEq

/-- Embeds the record schema of src/src/core/Trace.cc (the `*Record` structs,
lines 49-401).  Commands and `RefResult`s are encoded as integer ids
(`Option Nat`: the special refs and root launch of the default trace carry a
null command); the `LaunchRecord` carries the launched command's payload. -/
inductive Record where
  | specialRef (cmd : Option Nat) (entity : SpecialRefKind) (output : Nat)
  | pipeRef (cmd : Option Nat) (read_end write_end : Nat)
  | fileRef (cmd : Option Nat) (mode : Nat) (output : Nat)
  | symlinkRef (cmd : Option Nat) (target : String) (output : Nat)
  | dirRef (cmd : Option Nat) (mode : Nat) (output : Nat)
  | pathRef (cmd : Option Nat) (base : Nat) (path : String) (flags : Flags) (output : Nat)
  | expectResult (cmd : Option Nat) (ref : Nat) (expected : Nat)
  | matchMetadata (cmd : Option Nat) (ref : Nat) (version : Nat)
  | matchContent (cmd : Option Nat) (ref : Nat) (version : Nat)
  | updateMetadata (cmd : Option Nat) (ref : Nat) (version : Nat)
  | updateContent (cmd : Option Nat) (ref : Nat) (version : Nat)
  | launch (cmd : Option Nat) (child : TraceCommand)
  | join (cmd : Option Nat) (child : Nat) (exit_status : Nat)
  | exit (cmd : Option Nat) (exit_status : Nat)
  | endRecord
deriving DecidableEq

/-- Embeds `Record::isEnd` (src/src/core/Trace.cc line 391: only `EndRecord`
overrides the default false). -/
def Record.isEnd : Record → Bool
  | .endRecord => true
  | _ => false

/-- Embeds the read loop of `InputTrace::InputTrace` (src/src/core/Trace.cc
lines 405-424): records are read and accumulated until one with `isEnd` is
consumed.  The input models the sequence of records the cereal archive can
still deliver; when it is exhausted before an `End` record was seen, the next
`archive(record)` throws `cereal::Exception`, modelled as `none` (a trace that
cannot be deserialized is the same event: the stream of readable records simply
stops early). -/
def readRecords : List Record → Option (List Record)
  | [] => none
  | r :: rest => if r.isEnd then some [r] else (readRecords rest).map (r :: ·)

/-- The initial file-descriptor map of the default root command
(src/src/core/Trace.cc lines 453-455): stdin readable on fd 0, stdout and
stderr writable on fds 1 and 2. -/
def defaultFds : List (Nat × Nat × Flags) :=
  [(0, 0, { r := true }), (1, 1, { w := true }), (2, 2, { w := true })]

/-- The root command built by `InputTrace::initDefault` (src/src/core/Trace.cc
lines 457-459): executable reference is the `launch_exe` special ref (id 5),
argument vector `["dodo-launch"]`, the default fds, cwd ref 4 and root ref 3. -/
def rootCommand : TraceCommand :=
  ⟨5, ["dodo-launch"], defaultFds, 4, 3⟩

/-- Embeds `InputTrace::initDefault` (src/src/core/Trace.cc lines 426-463): the
records of the default trace in emission order — special refs for stdin,
stdout, stderr, the root directory, the working directory and the launch
executable (fresh `RefResult` ids 0-5), then a single `Launch` of the root
command. -/
def initDefault : List Record :=
  [.specialRef none .stdin 0,
   .specialRef none .stdout 1,
   .specialRef none .stderr 2,
   .specialRef none .root 3,
   .specialRef none .cwd 4,
   .specialRef none .launch_exe 5,
   .launch none rootCommand]

/-- Embeds the overall effect of the `InputTrace` constructor
(src/src/core/Trace.cc lines 405-424): the records read from the stored trace,
or the default trace when deserialization fails before an `End` record. -/
def loadInputTrace (input : List Record) : List Record :=
  (readRecords input).getD initDefault

/-- The default trace as the claim words it: only the three stdio special
references, the root and cwd special references, and a single `Launch` of the
root command.  Written out to compare against what the code builds. -/
def claimedDefault : List Record :=
  [.specialRef none .stdin 0,
   .specialRef none .stdout 1,
   .specialRef none .stderr 2,
   .specialRef none .root 3,
   .specialRef none .cwd 4,
   .launch none rootCommand]

/-! ### Command steps of the old-style trace (src/src/core/IR.hh,
src/src/core/Command.cc) -/

/-- Embeds the `Step` hierarchy of src/src/core/IR.hh: references
(`Reference::Pipe`, `Reference::Access`), predicates (`IsOK`, `IsError`,
`MetadataMatch`, `ContentsMatch`) and actions (`Launch`, `SetMetadata`,
`SetContents`).  References are encoded by id, artifact versions as
(artifact id, version index) pairs mirroring `Artifact::VersionRef`
(src/src/core/Artifact.hh lines 83-101). -/
inductive CoreStep where
  | pipeRef (id : Nat)
  | accessRef (id : Nat) (path : String) (flags : Flags)
  | isOK (r : Nat)
  | isError (r : Nat) (err : Nat)
  | metadataMatch (r : Nat) (v : Nat × Nat)
  | contentsMatch (r : Nat) (v : Nat × Nat)
  | launch (child : Nat)
  | setMetadata (r : Nat) (v : Nat × Nat)
  | setContents (r : Nat) (v : Nat × Nat)
deriving DecidableEq

/-- Embeds the version bookkeeping of `Artifact` (src/src/core/Artifact.hh):
an id and the number of tagged versions. -/
structure CoreArtifact where
  id : Nat
  versions : Nat
deriving DecidableEq

/-- Embeds `Artifact::tagNewVersion` (src/src/core/Artifact.hh lines 104-107):
push a fresh version and return a `VersionRef` to it. -/
def tagNewVersion (a : CoreArtifact) : (Nat × Nat) × CoreArtifact :=
  ((a.id, a.versions), { a with versions := a.versions + 1 })

/-- Embeds `Command::setMetadata` (src/src/core/Command.cc lines 104-107).
Note: the source pushes `Action::SetContents` here, not `Action::SetMetadata`,
even though its doc comment reads "This command sets the metadata for an
artifact". -/
def cmdSetMetadata (steps : List CoreStep) (r : Nat) (a : CoreArtifact) :
    List CoreStep × CoreArtifact :=
  let (v, a') := tagNewVersion a
  (steps ++ [CoreStep.setContents r v], a')

/-- Embeds `Command::setContents` (src/src/core/Command.cc lines 109-112). -/
def cmdSetContents (steps : List CoreStep) (r : Nat) (a : CoreArtifact) :
    List CoreStep × CoreArtifact :=
  let (v, a') := tagNewVersion a
  (steps ++ [CoreStep.setContents r v], a')

/-- Embeds `OutputTrace::updateMetadata` (src/src/core/Trace.cc lines 538-543):
the output trace appends an `UpdateMetadataRecord`. -/
def outputTraceUpdateMetadata (records : List Record) (cmd : Option Nat) (ref : Nat)
    (version : Nat) : List Record :=
  records ++ [Record.updateMetadata cmd ref version]

/-! ### Directory versions and entry lookup
(src/src/versions/DirVersion.hh, src/src/artifacts/DirArtifact.cc) -/

/-- Embeds the `Lookup` enum of src/src/versions/DirVersion.hh line 20. -/
inductive Lookup where
  | Yes
  | No
  | Maybe
deriving DecidableEq

/-- Embeds the `DirVersion` subclasses of src/src/versions/DirVersion.hh:
`LinkDirVersion` (entry name plus target reference, encoded by the target's
artifact id), `ListedDirVersion` (a complete entry list) and
`ExistingDirVersion` (lazily-learned `_present`/`_absent` entry sets backed by
the on-disk directory). -/
inductive DirVersion where
  | link (entry : String) (target : Nat)
  | listed (entries : List String)
  | existing (present : List String) (absent : List String)
deriving DecidableEq

/-- Modelled from the spec: `ExistingDirVersion::hasEntry` is declared at
src/src/versions/DirVersion.hh line 133 with fields `_present` and `_absent`,
but its body (DirVersion.cc) is not under src.  The spec says `ExistingDir`
"is the baseline that always answers definitively via the filesystem", so
known-present entries answer `Yes`, known-absent entries answer `No`, and
otherwise the on-disk directory (oracle `fs`) decides, never `Maybe`. -/
def existingHasEntry (fs : String → Bool) (present absent : List String)
    (name : String) : Lookup :=
  if name ∈ present then .Yes
  else if name ∈ absent then .No
  else if fs name then .Yes else .No

/-- Embeds `hasEntry` of the directory versions: `LinkDirVersion::hasEntry`
(src/src/versions/DirVersion.hh lines 80-84: `Yes` for the linked entry,
otherwise fall through with `Maybe`), `ListedDirVersion::hasEntry` (lines
185-187: `No` unless the entry is in the list), and the spec-modelled
`ExistingDirVersion` baseline. -/
def DirVersion.hasEntry (fs : String → Bool) : DirVersion → String → Lookup
  | .link e _, name => if e = name then .Yes else .Maybe
  | .listed entries, name => if name ∈ entries then .Yes else .No
  | .existing present absent, name => existingHasEntry fs present absent name

/-- Embeds `DirVersion::getEntry`: only `LinkDirVersion` overrides the base
(src/src/versions/DirVersion.hh lines 86-91); the base returns null (line 40),
meaning the artifact must come from the environment. -/
def DirVersion.getEntry : DirVersion → String → Option Nat
  | .link e t, name => if name = e then some t else none
  | .listed _, _ => none
  | .existing _ _, _ => none

/-- Embeds the scan loop of `DirArtifact::getEntry` (src/src/artifacts/
DirArtifact.cc lines 93-104): walk the version stack newest first, stopping at
the first version whose `hasEntry` is not `Maybe`; the result pairs the index
of the matched version with its answer. -/
def findMatch (fs : String → Bool) (name : String) : List DirVersion → Option (Nat × Lookup)
  | [] => none
  | v :: rest =>
    let found := v.hasEntry fs name
    if found ≠ Lookup.Maybe then some (0, found)
    else (findMatch fs name rest).map (fun p => (p.1 + 1, p.2))

/-- Embeds the relevant state of `DirArtifact`
(src/src/artifacts/DirArtifact.cc): `_dir_versions`, newest first because
`apply` uses `push_front`, and the `_resolved` cache of entry name to artifact.
-/
structure DirArtifact where
  dir_versions : List DirVersion
  resolved : List (String × Nat)
deriving DecidableEq

/-- Possible outcomes of `DirArtifact::getEntry`: the artifact itself for
".", a resolved artifact, `ENOENT`, or a fired `ASSERT` (the scan concluded
without a definite answer, or no artifact could be located for an existing
entry). -/
inductive EntryResult where
  | self
  | found (a : Nat)
  | enoent
  | assertFail
deriving DecidableEq

/-- The outcome of a `DirArtifact::getEntry` call: the resolution result, the
updated `_resolved` cache, and the indices of the directory versions passed to
`Build::observeInput` (the recorded input edges). -/
structure GetEntryOut where
  result : EntryResult
  resolved : List (String × Nat)
  observed : List Nat
deriving DecidableEq

/-- Embeds `DirArtifact::getEntry` (src/src/artifacts/DirArtifact.cc lines
84-139).  `fs` is the on-disk directory oracle used by the `ExistingDir`
baseline; `envGetPath` is the `Env::getPath` oracle used when no version can
provide the artifact; `dirpath` is the path of the directory reference, so the
environment is consulted at `dirpath / entry`. -/
def getEntry (fs : String → Bool) (envGetPath : String → Option Nat) (d : DirArtifact)
    (dirpath : String) (entry : String) : GetEntryOut :=
  if entry = "." then ⟨.self, d.resolved, []⟩
  else
    match findMatch fs entry d.dir_versions with
    | none => ⟨.assertFail, d.resolved, []⟩
    | some (i, Lookup.Yes) =>
      match assocLookup entry d.resolved with
      | some a => ⟨.found a, d.resolved, [i]⟩
      | none =>
        let fromVersion := d.dir_versions[i]?.bind (fun v => v.getEntry entry)
        match fromVersion with
        | some a => ⟨.found a, (entry, a) :: d.resolved, [i]⟩
        | none =>
          match envGetPath (dirpath ++ "/" ++ entry) with
          | some a => ⟨.found a, (entry, a) :: d.resolved, [i]⟩
          | none => ⟨.assertFail, d.resolved, [i]⟩
    | some (i, Lookup.No) => ⟨.enoent, d.resolved, [i]⟩
    | some (_, Lookup.Maybe) => ⟨.assertFail, d.resolved, []⟩

/-! ### Artifact versions and filesystem matching
(src/src/core/Artifact.hh, src/src/core/Rebuild.cc, src/src/versions/Version.hh) -/

/-- Embeds `struct timespec` as used for `st_mtim`. -/
structure TimeSpec where
  tv_sec : Int
  tv_nsec : Int
deriving DecidableEq

/-- The fields of `struct stat` the engine reads: uid, gid, mode and mtime. -/
structure StatData where
  st_uid : Nat
  st_gid : Nat
  st_mode : Nat
  st_mtim : TimeSpec
deriving DecidableEq

/-- Embeds `Artifact::Version` (src/src/core/Artifact.hh lines 133-139): the
optional saved stat metadata and the optional saved content fingerprint. -/
structure ArtifactVersion where
  has_metadata : Bool
  metadata : StatData
  has_fingerprint : Bool
  fingerprint : List Nat
deriving DecidableEq

/-- Embeds `Rebuild::checkFilesystemMetadata` (src/src/core/Rebuild.cc lines
371-401): no saved metadata or a failed stat never match; otherwise compare
only uid, gid and mode.  The on-disk stat outcome is the `ondisk` argument
(`none` models a failed `stat`). -/
def checkFilesystemMetadata (v : ArtifactVersion) (ondisk : Option StatData) : Bool :=
  if !v.has_metadata then false
  else
    match ondisk with
    | none => false
    | some m =>
      if m.st_uid ≠ v.metadata.st_uid then false
      else if m.st_gid ≠ v.metadata.st_gid then false
      else if m.st_mode ≠ v.metadata.st_mode then false
      else true

/-- Embeds `Rebuild::checkFilesystemContents` (src/src/core/Rebuild.cc lines
404-426): "For now, we're just going to check mtime" — no saved metadata or a
failed stat never match; otherwise the contents are deemed unchanged exactly
when the saved and on-disk `st_mtim` agree.  No fingerprint is consulted. -/
def checkFilesystemContents (v : ArtifactVersion) (ondisk : Option StatData) : Bool :=
  if !v.has_metadata then false
  else
    match ondisk with
    | none => false
    | some m =>
      if m.st_mtim ≠ v.metadata.st_mtim then false
      else true

/-- Embeds the base `Version::matches` (src/src/versions/Version.hh lines
73-78): the un-implemented comparison always reports false, as do the
directory-version overrides (src/src/versions/DirVersion.hh lines 75-78,
127-130, 179-182). -/
def versionMatchesDefault (v other : ArtifactVersion) : Bool := false

/-- A concrete version with saved stat metadata (a regular file with mode 644
and mtime 5 s) but no saved content fingerprint. -/
def mdOnlyVersion : ArtifactVersion :=
  ⟨true, ⟨0, 0, 33188, ⟨5, 0⟩⟩, false, []⟩

/-! ### Access checking during rebuild (src/src/core/Rebuild.cc) -/

/-- Reference resolution outcome `SUCCESS` (defined in the missing
core/Rebuild.hh; compared with errno values, 0). -/
def SUCCESS : Nat := 0

/-- POSIX `ENOENT`. -/
def ENOENT : Nat := 2

/-- POSIX `EEXIST`. -/
def EEXIST : Nat := 17

/-- Embeds the environment mutated by `Rebuild` during `findChanges`
(src/src/core/Rebuild.cc): `_entries` maps a path to the writing command and
the written version; `_output_used_by` and `_needs_output_from` collect the
dependency edges recorded while checking. -/
structure RebuildEnv where
  entries : List (String × (Nat × ArtifactVersion))
  output_used_by : List (Nat × Nat)
  needs_output_from : List (Nat × Nat)
deriving DecidableEq

/-- Embeds `Rebuild::checkFilesystemAccess` (src/src/core/Rebuild.cc lines
312-353).  `faccess` is the outcome of the `faccessat` probe: `none` models
return code 0, `some e` a failure with `errno = e`.  A missing file with the
`create` flag checks out as a success; an existing file with `create` and
`exclusive` checks out as `EEXIST`. -/
def checkFilesystemAccess (flags : Flags) (faccess : Option Nat) (expected : Nat) : Bool :=
  match faccess with
  | some e =>
    if e == ENOENT && flags.create then expected == SUCCESS
    else expected == e
  | none =>
    if flags.create && flags.exclusive then expected == EEXIST
    else expected == SUCCESS

/-- Embeds the `Access` branch of `Rebuild::checkAccess` (src/src/core/
Rebuild.cc lines 162-199) for command `c`: a path present in `_entries` records
both dependency edges on the writer and checks out as a success; otherwise the
real filesystem decides.  Returns the predicate outcome and the updated
environment. -/
def checkAccess (c : Nat) (env : RebuildEnv) (path : String) (flags : Flags)
    (faccess : Option Nat) (expected : Nat) : Bool × RebuildEnv :=
  match assocLookup path env.entries with
  | some (writer, _) =>
    let env1 := { env with
      output_used_by := listInsert (writer, c) env.output_used_by,
      needs_output_from := listInsert (c, writer) env.needs_output_from }
    (expected == SUCCESS, env1)
  | none => (checkFilesystemAccess flags faccess expected, env)

/-- Embeds `Rebuild::setContents` (src/src/core/Rebuild.cc lines 296-309) for
an `Access` reference: the path now resolves to the written version. -/
def rebuildSetContents (c : Nat) (env : RebuildEnv) (path : String) (v : ArtifactVersion) :
    RebuildEnv :=
  { env with entries := assocInsert path (c, v) env.entries }

/-- The access flags of `open("/tmp/x", O_RDWR | O_CREAT | O_EXCL)`. -/
def xclFlags : Flags :=
  { r := true, w := true, create := true, exclusive := true }

/-- A rebuild environment in which command 0 already wrote "/tmp/x". -/
def envWithX : RebuildEnv :=
  ⟨[("/tmp/x", (0, mdOnlyVersion))], [], []⟩

/-! ### The environment's inode registry (src/src/build/Env.cc) -/

/-- The fields of `struct stat` used by `Env::getFilesystemArtifact`. -/
structure StatInfo where
  st_dev : Nat
  st_ino : Nat
  st_mode : Nat
deriving DecidableEq

/-- Linux `S_IFMT` file-type mask (0xF000). -/
def S_IFMT : Nat := 61440

/-- Linux `S_IFREG` (0x8000). -/
def S_IFREG : Nat := 32768

/-- Linux `S_IFDIR` (0x4000). -/
def S_IFDIR : Nat := 16384

/-- Linux `S_IFLNK` (0xA000). -/
def S_IFLNK : Nat := 40960

/-- The artifact subclass chosen by `Env::getFilesystemArtifact`. -/
inductive ArtifactKind where
  | file
  | dir
  | symlink
deriving DecidableEq

/-- Embeds the registry state of `Env` (src/src/build/Env.cc): `_inodes` maps
`(st_dev, st_ino)` pairs to artifacts; artifacts are identified by creation
order, with `kinds` recording which subclass each one was built as. -/
structure EnvState where
  inodes : List ((Nat × Nat) × Nat)
  kinds : List (Nat × ArtifactKind)
  next_id : Nat
deriving DecidableEq

/-- Embeds `Env::getFilesystemArtifact` (src/src/build/Env.cc lines 65-108):
return the artifact already registered for `(info.st_dev, info.st_ino)` when
there is one; otherwise build a new artifact whose subclass follows
`info.st_mode & S_IFMT` (anything unexpected is treated as a file) and register
it under that key.  The initial versions (stat metadata, file contents,
readlink target) are not modelled; the path argument only feeds them and the
log. -/
def getFilesystemArtifact (st : EnvState) (path : String) (info : StatInfo) :
    Nat × EnvState :=
  match assocLookup (info.st_dev, info.st_ino) st.inodes with
  | some a => (a, st)
  | none =>
    let kind :=
      if info.st_mode &&& S_IFMT == S_IFREG then ArtifactKind.file
      else if info.st_mode &&& S_IFMT == S_IFDIR then ArtifactKind.dir
      else if info.st_mode &&& S_IFMT == S_IFLNK then ArtifactKind.symlink
      else ArtifactKind.file
    let a := st.next_id
    (a, ⟨((info.st_dev, info.st_ino), a) :: st.inodes, (a, kind) :: st.kinds, a + 1⟩)


/-! ## Proofs -/

/-- The closure invariant carried through `markMany`: every already-marked
command has each successor either marked or still pending on the work list. -/
lemma markMany_closed {n : Nat} (g : CmdGraph n) (l : List (Fin n)) (plan : List (Fin n))
    (hpend : ∀ x ∈ plan, ∀ d ∈ g.succs x, d ∈ plan ∨ d ∈ l) :
    ∀ x ∈ markMany g l plan, ∀ d ∈ g.succs x, d ∈ markMany g l plan := by
  induction l, plan using markMany.induct g with
  | case1 plan =>
    intro x hx d hd
    rw [markMany] at hx ⊢
    rcases hpend x hx d hd with h | h
    · exact h
    · simp at h
  | case2 c rest plan hc ih =>
    intro x hx d hd
    rw [markMany, if_pos hc] at hx ⊢
    refine ih ?_ x hx d hd
    intro y hy e he
    rcases hpend y hy e he with h | h
    · exact Or.inl h
    · rcases List.mem_cons.mp h with rfl | h
      · exact Or.inl hc
      · exact Or.inr h
  | case3 c rest plan hc ih =>
    intro x hx d hd
    rw [markMany, if_neg hc] at hx ⊢
    refine ih ?_ x hx d hd
    intro y hy e he
    rcases List.mem_cons.mp hy with rfl | hy'
    · exact Or.inr (List.mem_append_left _ he)
    · rcases hpend y hy' e he with h | h
      · exact Or.inl (List.mem_cons_of_mem _ h)
      · rcases List.mem_cons.mp h with rfl | h
        · exact Or.inl (List.mem_cons_self _ _)
        · exact Or.inr (List.mem_append_right _ h)

/-- Marking never removes a command from the plan. -/
lemma subset_markMany {n : Nat} (g : CmdGraph n) (l : List (Fin n)) (plan : List (Fin n)) :
    ∀ c ∈ plan, c ∈ markMany g l plan := by
  induction l, plan using markMany.induct g with
  | case1 plan => intro c hc; rw [markMany]; exact hc
  | case2 c rest plan hc ih => intro x hx; rw [markMany, if_pos hc]; exact ih x hx
  | case3 c rest plan hc ih =>
    intro x hx
    rw [markMany, if_neg hc]
    exact ih x (List.mem_cons_of_mem _ hx)

/-- Every command on the work list ends up marked. -/
lemma mem_markMany_of_mem {n : Nat} (g : CmdGraph n) (l : List (Fin n)) (plan : List (Fin n)) :
    ∀ c ∈ l, c ∈ markMany g l plan := by
  induction l, plan using markMany.induct g with
  | case1 plan => intro c hc; simp at hc
  | case2 c rest plan hc ih =>
    intro x hx
    rw [markMany, if_pos hc]
    rcases List.mem_cons.mp hx with rfl | hx
    · exact subset_markMany g rest plan x hc
    · exact ih x hx
  | case3 c rest plan hc ih =>
    intro x hx
    rw [markMany, if_neg hc]
    rcases List.mem_cons.mp hx with rfl | hx
    · exact subset_markMany g _ _ x (List.mem_cons_self _ _)
    · exact ih x (List.mem_append_right _ hx)

/-- Any fuel above `markBound` is enough: the fuelled recursion never runs out
and agrees with the fuel-free function. -/
lemma markManyF_spec {n : Nat} (g : CmdGraph n) :
    ∀ (fuel : Nat) (l : List (Fin n)) (plan : List (Fin n)),
      markBound g plan l < fuel → markManyF g fuel l plan = some (markMany g l plan) := by
  intro fuel
  induction fuel with
  | zero => intro l plan h; exact absurd h (Nat.not_lt_zero _)
  | succ f ih =>
    intro l plan h
    match l with
    | [] => rw [markManyF, markMany]
    | c :: rest =>
      by_cases hc : c ∈ plan
      · rw [markManyF, if_pos hc, markMany, if_pos hc]
        apply ih
        have : markBound g plan (c :: rest) = markBound g plan rest + 1 := by
          simp [markBound, List.length_cons]; ring
        omega
      · rw [markManyF, if_neg hc, markMany, if_neg hc]
        apply ih
        have hcmem : c ∈ Finset.univ \ plan.toFinset := by
          simp [Finset.mem_sdiff, List.mem_toFinset, hc]
        have hcard : (Finset.univ \ (c :: plan).toFinset).card =
            (Finset.univ \ plan.toFinset).card - 1 := by
          rw [List.toFinset_cons, Finset.sdiff_insert]
          exact Finset.card_erase_of_mem hcmem
        have hpos : 0 < (Finset.univ \ plan.toFinset).card :=
          Finset.card_pos.mpr ⟨c, hcmem⟩
        have hlen : (g.succs c).length ≤ succBound g :=
          Finset.le_sup (f := fun c => (g.succs c).length) (Finset.mem_univ c)
        simp only [markBound, List.length_append, List.length_cons] at h ⊢
        rw [hcard]
        obtain ⟨k, hk⟩ : ∃ k, (Finset.univ \ plan.toFinset).card = k + 1 :=
          ⟨(Finset.univ \ plan.toFinset).card - 1, by omega⟩
        rw [hk] at h ⊢
        simp only [Nat.add_sub_cancel]
        have hmul : (k + 1) * (succBound g + 1) = k * (succBound g + 1) + (succBound g + 1) := by
          ring
        omega

/-- Transfer a concrete fuelled computation to the fuel-free `markMany`. -/
lemma markMany_eval {n : Nat} (g : CmdGraph n) (l : List (Fin n)) (plan X : List (Fin n))
    (fuel : Nat) (h1 : markBound g plan l < fuel) (h2 : markManyF g fuel l plan = some X) :
    markMany g l plan = X := by
  have h := markManyF_spec g fuel l plan h1
  rw [h2] at h
  exact (Option.some.inj h).symm

/-- Folding `mark` over a seed list preserves closure of the plan. -/
lemma foldl_mark_closed {n : Nat} (g : CmdGraph n) :
    ∀ (seeds : List (Fin n)) (plan : List (Fin n)),
      (∀ x ∈ plan, ∀ d ∈ g.succs x, d ∈ plan) →
      ∀ x ∈ seeds.foldl (mark g) plan, ∀ d ∈ g.succs x, d ∈ seeds.foldl (mark g) plan := by
  intro seeds
  induction seeds with
  | nil => intro plan h; simpa using h
  | cons c rest ih =>
    intro plan h
    rw [List.foldl_cons]
    apply ih
    apply markMany_closed
    intro x hx d hd
    exact Or.inl (h x hx d hd)

/-- Folding `mark` over a seed list never removes commands from the plan. -/
lemma subset_foldl_mark {n : Nat} (g : CmdGraph n) :
    ∀ (seeds : List (Fin n)) (plan : List (Fin n)), ∀ c ∈ plan, c ∈ seeds.foldl (mark g) plan := by
  intro seeds
  induction seeds with
  | nil => intro plan c hc; simpa using hc
  | cons x rest ih =>
    intro plan c hc
    rw [List.foldl_cons]
    exact ih _ c (subset_markMany g [x] plan c hc)

/-- Every seed command ends up in the plan produced by folding `mark`. -/
lemma mem_foldl_mark {n : Nat} (g : CmdGraph n) :
    ∀ (seeds : List (Fin n)) (plan : List (Fin n)), ∀ c ∈ seeds, c ∈ seeds.foldl (mark g) plan := by
  intro seeds
  induction seeds with
  | nil => intro plan c hc; simp at hc
  | cons x rest ih =>
    intro plan c hc
    rw [List.foldl_cons]
    rcases List.mem_cons.mp hc with rfl | hc
    · exact subset_foldl_mark g rest _ c (mem_markMany_of_mem g [c] plan c (by simp))
    · exact ih _ c hc

end Riker

/-- C2: the rerun set computed by the planner is closed under the three
propagated edge kinds: for every command in the plan, all of its children, all
producers it needs output from, and all consumers of its output are in the plan
as well, so no Child, OutputNeeded or InputMayChange edge leaves the marked set
unmarked. -/
theorem planBuild_closed {n : Nat} (g : Riker.CmdGraph n)
    (changed output_needed : List (Fin n)) :
    ∀ c ∈ Riker.planBuild g changed output_needed,
      (∀ d ∈ g.children c, d ∈ Riker.planBuild g changed output_needed) ∧
      (∀ d ∈ g.needs_output_from c, d ∈ Riker.planBuild g changed output_needed) ∧
      (∀ d ∈ g.output_used_by c, d ∈ Riker.planBuild g changed output_needed) := by
  intro c hc
  have h := Riker.foldl_mark_closed g (changed ++ output_needed) [] (by simp) c hc
  refine ⟨?_, ?_, ?_⟩
  · intro d hd
    exact h d (List.mem_append_left _ (List.mem_append_left _ hd))
  · intro d hd
    exact h d (List.mem_append_left _ (List.mem_append_right _ hd))
  · intro d hd
    exact h d (List.mem_append_right _ hd)

/-- C2 witness: on the concrete graph `gChild` with command 0 changed, the
theorem instantiated at command 0 puts its child 1 into the plan. -/
theorem planBuild_closed_witness :
    (1 : Fin 2) ∈ Riker.planBuild Riker.gChild [0] [] := by
  have heval : Riker.planBuild Riker.gChild [0] [] = [1, 0] :=
    Riker.markMany_eval Riker.gChild [0] [] [1, 0] 100 (by decide) (by decide)
  exact (planBuild_closed Riker.gChild [0] [] 0 (by rw [heval]; decide)).1 1 (by decide)

/-- C8: the recursive mark procedure terminates on every finite command graph,
cyclic dependency edges included: run with any fuel above the explicit bound
`markBound` (which exists because each command is marked at most once and the
marked set only grows), the fuelled recursion does not run out and computes the
fuel-free fixed point; moreover a call on an already-marked command returns
immediately, without pushing any recursive work. -/
theorem mark_terminating {n : Nat} (g : Riker.CmdGraph n) (fuel : Nat)
    (l : List (Fin n)) (plan : List (Fin n)) (h : Riker.markBound g plan l < fuel) :
    Riker.markManyF g fuel l plan = some (Riker.markMany g l plan) ∧
    (∀ c ∈ plan, Riker.markMany g (c :: l) plan = Riker.markMany g l plan) := by
  constructor
  · exact Riker.markManyF_spec g fuel l plan h
  · intro c hc
    rw [Riker.markMany, if_pos hc]

/-- C8 witness: on the concrete cyclic graph `gCycle` (commands 0 and 1 each
consume the other's output), marking command 0 with fuel 100 bottoms out and
yields the fuel-free plan. -/
theorem mark_terminating_witness :
    Riker.markManyF Riker.gCycle 100 [0] [] = some (Riker.markMany Riker.gCycle [0] []) :=
  (mark_terminating Riker.gCycle 100 [0] [] (by decide)).1

/-- C10: for every integer flags argument, `Flags::fromOpen` returns a value
whose `r` field is true — including write-only opens — because the read test
compares `flags & O_RDONLY` against `O_RDONLY`, and `O_RDONLY` is the zero
mask, so the test always succeeds. -/
theorem fromOpen_r_always_true (flags : Nat) :
    (Riker.Flags.fromOpen flags).r = true := by
  simp [Riker.Flags.fromOpen, Riker.O_RDONLY]

namespace Riker

/-- An inserted element is a member of the set it was inserted into. -/
lemma mem_listInsert_self {α : Type} [DecidableEq α] (x : α) (l : List α) :
    x ∈ listInsert x l := by
  unfold listInsert
  split
  · assumption
  · exact List.mem_cons_self _ _

/-- An inserted value is in the image of its key after a map insert. -/
lemma mapInsert_mem {n : Nat} (f : Fin n → List (Fin n)) (k v : Fin n) :
    v ∈ mapInsert f k v k := by
  unfold mapInsert
  rw [if_pos rfl]
  exact mem_listInsert_self v (f k)

end Riker

/-- C3 counterexample, scenario S6 on commands A = 0 and B = 1: command B read
a version produced by command A that is saved in the cache and `enable_cache`
is on, and A observed a change.  The planner still records the
`output_used_by` (InputMayChange) edge from A to B — only the
`needs_output_from` edge is suppressed — so B IS marked for rerun when A is,
contrary to the claim. -/
theorem s6_consumer_still_marked :
    (0 : Fin 2) ∈ Riker.planBuildS Riker.s6state ∧
    (1 : Fin 2) ∈ Riker.planBuildS Riker.s6state ∧
    Riker.s6state.needs_output_from 1 = [] ∧
    Riker.s6state.output_used_by 0 = [1] := by
  have heval : Riker.planBuildS Riker.s6state = [1, 0] :=
    Riker.markMany_eval (Riker.graphOf Riker.s6state) [0] [] [1, 0] 100 (by decide) (by decide)
  refine ⟨?_, ?_, ?_, ?_⟩
  · rw [heval]; decide
  · rw [heval]; decide
  · rfl
  · rfl

/-- C3 (amended): with `enable_cache` on and a version the artifact can commit
from cache, `observeInput` suppresses only the `needs_output_from`
(OutputNeeded) edge from consumer to producer; the `output_used_by`
(InputMayChange) edge from producer to consumer is still recorded whenever the
input type is not `Exists`, so rerunning the producer still forces the
consumer to rerun. -/
theorem observeInput_cache_suppresses_only_back_edge {n : Nat} (s : Riker.PlannerState n)
    (c cr : Fin n) (t : Riker.InputType) (ht : t ≠ Riker.InputType.Exists) :
    (Riker.observeInput s c (some cr) t true true).needs_output_from =
      s.needs_output_from ∧
    c ∈ (Riker.observeInput s c (some cr) t true true).output_used_by cr := by
  have hred : Riker.observeInput s c (some cr) t true true =
      { s with output_used_by := Riker.mapInsert s.output_used_by cr c } := by
    simp [Riker.observeInput, ht]
  rw [hred]
  exact ⟨rfl, Riker.mapInsert_mem s.output_used_by cr c⟩

/-- C3 witness for the amended theorem, at the concrete S6 observation. -/
theorem observeInput_cache_suppression_witness :
    (Riker.observeInput (Riker.emptyPlanner 2) 1 (some 0) Riker.InputType.PathResolution
        true true).needs_output_from = (Riker.emptyPlanner 2).needs_output_from ∧
    (1 : Fin 2) ∈ (Riker.observeInput (Riker.emptyPlanner 2) 1 (some 0)
        Riker.InputType.PathResolution true true).output_used_by 0 :=
  observeInput_cache_suppresses_only_back_edge (Riker.emptyPlanner 2) 1 0
    Riker.InputType.PathResolution (by decide)

/-- C7: evaluating `Command::setMetadata` on an empty command shows that the
step it appends is an `Action::SetContents`, which is never equal to an
`Action::SetMetadata` step, while `OutputTrace::updateMetadata` does append a
metadata-update record.  This documents the slip in src/src/core/Command.cc
lines 104-107. -/
theorem setMetadata_pushes_contents_action :
    (Riker.cmdSetMetadata [] 0 ⟨5, 0⟩).1 = [Riker.CoreStep.setContents 0 (5, 0)] ∧
    (∀ v : Nat × Nat,
        Riker.CoreStep.setContents 0 (5, 0) ≠ Riker.CoreStep.setMetadata 0 v) ∧
    Riker.outputTraceUpdateMetadata [] (some 0) 1 2 =
      [Riker.Record.updateMetadata (some 0) 1 2] := by
  refine ⟨rfl, ?_, rfl⟩
  intro v h
  exact Riker.CoreStep.noConfusion h

namespace Riker

/-- A record stream with no `End` record always fails to deserialize. -/
lemma readRecords_none (input : List Record) (h : ∀ r ∈ input, r.isEnd = false) :
    readRecords input = none := by
  induction input with
  | nil => rfl
  | cons r rest ih =>
    unfold readRecords
    rw [h r (List.mem_cons_self _ _)]
    simp only [Bool.false_eq_true, if_false]
    rw [ih (fun r' hr' => h r' (List.mem_cons_of_mem _ hr'))]
    rfl

end Riker

/-- C4 counterexample: the default trace built when no trace can be read does
not consist exactly of the stdio, root and cwd special references plus a
`Launch`; it also carries the `launch_exe` special reference. -/
theorem default_trace_not_as_claimed :
    Riker.loadInputTrace [] = Riker.initDefault ∧
    Riker.Record.specialRef none Riker.SpecialRefKind.launch_exe 5 ∈
      Riker.loadInputTrace [] ∧
    Riker.loadInputTrace [] ≠ Riker.claimedDefault := by
  refine ⟨rfl, by decide, by decide⟩

/-- C4 (amended): a stored trace that cannot be deserialized or that is not
terminated by an `End` record (modelled as a record stream that stops before
any `End` record) is replaced by the default trace, consisting exactly of the
stdio special references, the root, cwd and launch_exe special references, and
a single `Launch` of the root command; and a command observed as never run —
as the fresh root command of the default trace is — always lands in the rerun
plan. -/
theorem broken_trace_uses_default_trace (input : List Riker.Record)
    (h : ∀ r ∈ input, r.isEnd = false) :
    Riker.loadInputTrace input = Riker.initDefault ∧
    Riker.initDefault =
      [Riker.Record.specialRef none Riker.SpecialRefKind.stdin 0,
       Riker.Record.specialRef none Riker.SpecialRefKind.stdout 1,
       Riker.Record.specialRef none Riker.SpecialRefKind.stderr 2,
       Riker.Record.specialRef none Riker.SpecialRefKind.root 3,
       Riker.Record.specialRef none Riker.SpecialRefKind.cwd 4,
       Riker.Record.specialRef none Riker.SpecialRefKind.launch_exe 5,
       Riker.Record.launch none Riker.rootCommand] ∧
    (∀ (m : Nat) (s : Riker.PlannerState m) (root : Fin m),
        root ∈ Riker.planBuildS (Riker.observeCommandNeverRun s root)) := by
  refine ⟨?_, rfl, ?_⟩
  · unfold Riker.loadInputTrace
    rw [Riker.readRecords_none input h]
    rfl
  · intro m s root
    apply Riker.mem_foldl_mark
    apply List.mem_append_left
    exact Riker.mem_listInsert_self root s.changed

/-- C4 witness: a trace consisting of a single stray record and no `End` is
replaced by the default trace. -/
theorem broken_trace_uses_default_trace_witness :
    Riker.loadInputTrace [Riker.Record.pipeRef none 0 1] = Riker.initDefault :=
  (broken_trace_uses_default_trace [Riker.Record.pipeRef none 0 1] (by decide)).1

/-- C5 counterexample: a version with no saved fingerprint at all still passes
the filesystem content match when the on-disk mtime equals its saved metadata
mtime, so a content match does not require equality of saved fingerprints —
the code compares mtimes, never fingerprints. -/
theorem contents_match_without_fingerprint :
    Riker.checkFilesystemContents Riker.mdOnlyVersion
      (some ⟨0, 0, 33188, ⟨5, 0⟩⟩) = true ∧
    Riker.mdOnlyVersion.has_fingerprint = false := by
  exact ⟨rfl, rfl⟩

/-- C5 (amended): filesystem matching compares only saved stat metadata: the
metadata match holds iff metadata is saved, the stat succeeds, and the
(uid, gid, mode) triples agree; the content match holds iff metadata is saved,
the stat succeeds, and the mtimes agree (mtime stands in for the content
fingerprint); a version with nothing saved never matches, and the generic
`Version::matches` fallback always reports false (forcing a rerun). -/
theorem filesystem_match_semantics (v : Riker.ArtifactVersion)
    (ondisk : Option Riker.StatData) :
    (Riker.checkFilesystemMetadata v ondisk = true ↔
      v.has_metadata = true ∧ ∃ m, ondisk = some m ∧
        m.st_uid = v.metadata.st_uid ∧ m.st_gid = v.metadata.st_gid ∧
        m.st_mode = v.metadata.st_mode) ∧
    (Riker.checkFilesystemContents v ondisk = true ↔
      v.has_metadata = true ∧ ∃ m, ondisk = some m ∧
        m.st_mtim = v.metadata.st_mtim) ∧
    (∀ w, Riker.versionMatchesDefault v w = false) := by
  refine ⟨?_, ?_, fun _ => rfl⟩
  · cases hv : v.has_metadata <;> cases ondisk <;>
      simp [Riker.checkFilesystemMetadata, hv] <;> split_ifs <;> simp_all
  · cases hv : v.has_metadata <;> cases ondisk <;>
      simp [Riker.checkFilesystemContents, hv] <;> split_ifs <;> simp_all

/-- C6 counterexample, scenario S4: two successive create|exclusive checks of
the same missing path both check out as `SUCCESS` — the check records no entry,
so the second check sees the same environment and does not produce `Exists`;
and a path that already has an entry in the build environment checks out as
`SUCCESS` despite create|exclusive, not as `EEXIST`. -/
theorem exclusive_create_second_resolution_ok :
    (Riker.checkAccess 0 ⟨[], [], []⟩ "/tmp/x" Riker.xclFlags (some Riker.ENOENT)
        Riker.SUCCESS).1 = true ∧
    (Riker.checkAccess 0 ⟨[], [], []⟩ "/tmp/x" Riker.xclFlags (some Riker.ENOENT)
        Riker.SUCCESS).2 = ⟨[], [], []⟩ ∧
    (Riker.checkAccess 0 ⟨[], [], []⟩ "/tmp/x" Riker.xclFlags (some Riker.ENOENT)
        Riker.EEXIST).1 = false ∧
    (Riker.checkAccess 1 Riker.envWithX "/tmp/x" Riker.xclFlags none
        Riker.SUCCESS).1 = true ∧
    (Riker.checkAccess 1 Riker.envWithX "/tmp/x" Riker.xclFlags none
        Riker.EEXIST).1 = false := by
  exact ⟨rfl, rfl, rfl, rfl, rfl⟩

/-- C6 (amended): a create|exclusive reference checks out as `EEXIST` only when
the path has no entry in the build environment and the on-disk probe succeeds;
a path with an environment entry checks out as a success regardless of the
exclusive flag; and checking an access never records an entry, so repeating the
same resolution gives the same answer. -/
theorem exclusive_create_check_semantics (c : Nat) (env : Riker.RebuildEnv)
    (path : String) (flags : Riker.Flags) (faccess : Option Nat) (expected : Nat)
    (hcreate : flags.create = true) (hexcl : flags.exclusive = true) :
    (Riker.assocLookup path env.entries = none →
      (Riker.checkAccess c env path flags none Riker.EEXIST).1 = true ∧
      (Riker.checkAccess c env path flags none Riker.SUCCESS).1 = false) ∧
    (∀ w v, Riker.assocLookup path env.entries = some (w, v) →
      (Riker.checkAccess c env path flags faccess Riker.SUCCESS).1 = true) ∧
    (Riker.checkAccess c env path flags faccess expected).2.entries = env.entries := by
  refine ⟨?_, ?_, ?_⟩
  · intro h
    unfold Riker.checkAccess
    rw [h]
    constructor
    · simp [Riker.checkFilesystemAccess, hcreate, hexcl]
    · simp [Riker.checkFilesystemAccess, hcreate, hexcl]
      decide
  · intro w v h
    unfold Riker.checkAccess
    rw [h]
    rfl
  · rcases h : Riker.assocLookup path env.entries with _ | ⟨w, v⟩ <;>
      simp [Riker.checkAccess, h]

/-- C6 witness for the amended theorem: the concrete exclusive-create flags on
an empty environment with the file present on disk check out as `EEXIST`. -/
theorem exclusive_create_check_semantics_witness :
    (Riker.checkAccess 0 ⟨[], [], []⟩ "/tmp/x" Riker.xclFlags none Riker.EEXIST).1 = true ∧
    (Riker.checkAccess 0 ⟨[], [], []⟩ "/tmp/x" Riker.xclFlags none Riker.SUCCESS).1 = false :=
  (exclusive_create_check_semantics 0 ⟨[], [], []⟩ "/tmp/x" Riker.xclFlags none 0
      rfl rfl).1 rfl


namespace Riker

/-- When the inode key is already registered, `getFilesystemArtifact` returns
the existing artifact and leaves the registry untouched. -/
lemma getFilesystemArtifact_hit (st : EnvState) (p : String) (i : StatInfo) (a : Nat)
    (h : assocLookup (i.st_dev, i.st_ino) st.inodes = some a) :
    getFilesystemArtifact st p i = (a, st) := by
  unfold getFilesystemArtifact
  rw [h]

/-- After any `getFilesystemArtifact` call, the registry maps the stat key to
the returned artifact. -/
lemma getFilesystemArtifact_registered (st : EnvState) (p : String) (i : StatInfo) :
    assocLookup (i.st_dev, i.st_ino) (getFilesystemArtifact st p i).2.inodes =
      some (getFilesystemArtifact st p i).1 := by
  rcases h : assocLookup (i.st_dev, i.st_ino) st.inodes with _ | a <;>
    simp [getFilesystemArtifact, h, assocLookup]

end Riker

/-- C9: the environment's artifact registry maps each on-disk inode to at most
one artifact, keyed by `(st_dev, st_ino)`: a second call whose stat resolves to
the same key returns the same artifact as the first, and when the key is
already registered the call returns the existing artifact and leaves the state
untouched — a new artifact is created only when the key is absent. -/
theorem env_inode_registry (st : Riker.EnvState) (p1 p2 : String)
    (i1 i2 : Riker.StatInfo) (hdev : i1.st_dev = i2.st_dev)
    (hino : i1.st_ino = i2.st_ino) :
    (Riker.getFilesystemArtifact (Riker.getFilesystemArtifact st p1 i1).2 p2 i2).1 =
      (Riker.getFilesystemArtifact st p1 i1).1 ∧
    (∀ a, Riker.assocLookup (i1.st_dev, i1.st_ino) st.inodes = some a →
      Riker.getFilesystemArtifact st p1 i1 = (a, st)) := by
  constructor
  · have hreg := Riker.getFilesystemArtifact_registered st p1 i1
    rw [hdev, hino] at hreg
    rw [Riker.getFilesystemArtifact_hit _ p2 i2 _ hreg]
  · intro a ha
    exact Riker.getFilesystemArtifact_hit st p1 i1 a ha

/-- C9 witness: two stats of paths on device 1, inode 100 starting from the
empty registry return the same artifact. -/
theorem env_inode_registry_witness :
    (Riker.getFilesystemArtifact
        (Riker.getFilesystemArtifact ⟨[], [], 0⟩ "/a" ⟨1, 100, 33188⟩).2
        "/b" ⟨1, 100, 33188⟩).1 =
      (Riker.getFilesystemArtifact ⟨[], [], 0⟩ "/a" ⟨1, 100, 33188⟩).1 :=
  (env_inode_registry ⟨[], [], 0⟩ "/a" "/b" ⟨1, 100, 33188⟩ ⟨1, 100, 33188⟩ rfl rfl).1

namespace Riker

/-- Characterization of the version-stack scan: a result `(i, r)` means the
version at index `i` (0 = newest) answered `r`, the answer is definite, and
every newer version answered `Maybe`. -/
lemma findMatch_spec (fs : String → Bool) (name : String) :
    ∀ (vs : List DirVersion) (i : Nat) (r : Lookup),
      findMatch fs name vs = some (i, r) →
      r ≠ Lookup.Maybe ∧
      (∃ v, vs[i]? = some v ∧ v.hasEntry fs name = r) ∧
      (∀ j v, j < i → vs[j]? = some v → v.hasEntry fs name = Lookup.Maybe) := by
  intro vs
  induction vs with
  | nil => intro i r h; simp [findMatch] at h
  | cons v rest ih =>
    intro i r h
    unfold findMatch at h
    by_cases hv : v.hasEntry fs name ≠ Lookup.Maybe
    · rw [if_pos hv] at h
      obtain ⟨rfl, rfl⟩ : 0 = i ∧ v.hasEntry fs name = r := by
        have := Option.some.inj h
        exact ⟨congrArg Prod.fst this, congrArg Prod.snd this⟩
      refine ⟨hv, ⟨v, by simp, rfl⟩, ?_⟩
      intro j w hj
      omega
    · rw [if_neg hv] at h
      push_neg at hv
      cases hm : findMatch fs name rest with
      | none => rw [hm] at h; simp at h
      | some p =>
        rw [hm] at h
        simp only [Option.map_some'] at h
        obtain ⟨hi, hr⟩ : p.1 + 1 = i ∧ p.2 = r := by
          have := Option.some.inj h
          exact ⟨congrArg Prod.fst this, congrArg Prod.snd this⟩
        obtain ⟨h1, ⟨w, hw1, hw2⟩, h3⟩ := ih p.1 p.2 hm
        subst hi
        subst hr
        refine ⟨h1, ⟨w, by simpa using hw1, hw2⟩, ?_⟩
        intro j u hj hu
        match j with
        | 0 =>
          rw [List.getElem?_cons_zero] at hu
          cases Option.some.inj hu
          exact hv
        | j' + 1 =>
          exact h3 j' u (by omega) (by simpa using hu)

end Riker

/-- C1: for an entry name other than ".", `DirArtifact::getEntry` scans the
version stack newest to oldest and the first version with a definite `hasEntry`
answer decides: nothing newer answered definitely; a `No` produces `ENOENT`
after recording an input edge on exactly the excluding version; a `Yes`, with
the artifact available from the cache, the matched version or the environment,
produces that artifact, caches it under the entry name, and records an input
edge on exactly the matched version. -/
theorem getEntry_first_definite_wins (fs : String → Bool)
    (envGetPath : String → Option Nat) (d : Riker.DirArtifact)
    (dirpath entry : String) (hne : entry ≠ ".") :
    (∀ i r, Riker.findMatch fs entry d.dir_versions = some (i, r) →
      r ≠ Riker.Lookup.Maybe ∧
      (∃ v, d.dir_versions[i]? = some v ∧ v.hasEntry fs entry = r) ∧
      (∀ j v, j < i → d.dir_versions[j]? = some v →
        v.hasEntry fs entry = Riker.Lookup.Maybe)) ∧
    (∀ i, Riker.findMatch fs entry d.dir_versions = some (i, Riker.Lookup.No) →
      Riker.getEntry fs envGetPath d dirpath entry =
        ⟨Riker.EntryResult.enoent, d.resolved, [i]⟩) ∧
    (∀ i, Riker.findMatch fs entry d.dir_versions = some (i, Riker.Lookup.Yes) →
      ((Riker.assocLookup entry d.resolved).isSome ∨
       (d.dir_versions[i]?.bind (fun v => v.getEntry entry)).isSome ∨
       (envGetPath (dirpath ++ "/" ++ entry)).isSome) →
      ∃ a, (Riker.getEntry fs envGetPath d dirpath entry).result =
             Riker.EntryResult.found a ∧
           Riker.assocLookup entry
             (Riker.getEntry fs envGetPath d dirpath entry).resolved = some a ∧
           (Riker.getEntry fs envGetPath d dirpath entry).observed = [i]) := by
  refine ⟨Riker.findMatch_spec fs entry d.dir_versions, ?_, ?_⟩
  · intro i h
    unfold Riker.getEntry
    rw [if_neg hne, h]
  · intro i h hres
    unfold Riker.getEntry
    rw [if_neg hne, h]
    rcases hc : Riker.assocLookup entry d.resolved with _ | a
    · rcases hv : d.dir_versions[i]?.bind (fun v => v.getEntry entry) with _ | a
      · rcases he : envGetPath (dirpath ++ "/" ++ entry) with _ | a
        · rw [hc, hv, he] at hres
          simp at hres
        · exact ⟨a, by simp [hv, he], by simp [hv, he, Riker.assocLookup], by simp [hv, he]⟩
      · exact ⟨a, by simp [hv], by simp [hv, Riker.assocLookup], by simp [hv]⟩
    · exact ⟨a, by simp, hc, by simp⟩

/-- C1 witness: on a directory whose stack is a newer link of "a" over a
listing containing "b" (and an empty resolution cache), looking up "b" skips
the link version (`Maybe`), stops at the listing (`Yes` at index 1), resolves
artifact 9 through the environment, caches it and records the input edge. -/
theorem getEntry_first_definite_wins_witness :
    ∃ a, (Riker.getEntry (fun _ => false)
            (fun s => if s = "/d/b" then some 9 else none)
            ⟨[Riker.DirVersion.link "a" 7, Riker.DirVersion.listed ["b"]], []⟩
            "/d" "b").result = Riker.EntryResult.found a ∧
         Riker.assocLookup "b"
           (Riker.getEntry (fun _ => false)
             (fun s => if s = "/d/b" then some 9 else none)
             ⟨[Riker.DirVersion.link "a" 7, Riker.DirVersion.listed ["b"]], []⟩
             "/d" "b").resolved = some a ∧
         (Riker.getEntry (fun _ => false)
             (fun s => if s = "/d/b" then some 9 else none)
             ⟨[Riker.DirVersion.link "a" 7, Riker.DirVersion.listed ["b"]], []⟩
             "/d" "b").observed = [1] :=
  (getEntry_first_definite_wins (fun _ => false)
      (fun s => if s = "/d/b" then some 9 else none)
      ⟨[Riker.DirVersion.link "a" 7, Riker.DirVersion.listed ["b"]], []⟩
      "/d" "b" (by decide)).2.2 1 (by decide) (by decide)
